import Mathlib

/-!
Verification of the cooperative reader-writer lock in `src/sync/rwlock.rs`
(crate `shuttle`).

The Rust code drives a reader-writer lock entirely through a deterministic
cooperative scheduler: acquisitions announce intent in a waiting set, block
if the current holder is incompatible, yield, and on resumption commit
themselves as holder and re-block every other waiter; guard drops update
the holder, unblock all waiters and yield.

Shallow embedding:
* `TaskId` is `Nat`; `TaskSet` (an unordered collection of task ids with
  insert / remove / contains / is-empty / deterministic iteration) is a
  duplicate-free `List Nat`: `List.insert` inserts only when absent, which
  is exactly the set semantics, and the list order stands in for the
  collection's deterministic iteration order.
* Scheduler calls (`block`, `unblock`, `maybe_unblock`, `Execution::switch`)
  are recorded as a trace of `Effect`s; their meaning on the scheduler's
  blocked-set is given by `applyEffects`.
* Rust panics (`assert!`, `assert_eq!`, `panic!`) become `Except.error`.
* `fn lock` spans a yield point (`Execution::switch()`), so it is embedded
  as the two straight-line halves `lock_intent` (before the switch) and
  `lock_resume` (after the switch); `lock_full` composes them, letting an
  arbitrary environment function mutate the state at the yield, and chains
  the effect traces with the `.switch` effect in between.
* The inner `std::sync::RwLock` (external to this crate) is modelled by
  `NativeRwLock` with the standard non-blocking borrow-counting semantics
  of `try_read` / `try_write`.
-/

/-- Task identifier (`crate::runtime::task_id::TaskId`). -/
abbrev TaskId := Nat

/-- Unordered duplicate-free collection of task ids
(`crate::runtime::task_id::TaskSet`). -/
abbrev TaskSet := List TaskId

deriving instance DecidableEq for Except

/-- The operation `TaskSet::remove`: drop a task id from the set (all occurrences, so the
operation is set-like on any list). -/
def TaskSet.remove (ts : TaskSet) (t : TaskId) : TaskSet :=
  ts.filter (fun x => x != t)

/-- The Rust enum `RwLockHolder` with variants `Read(TaskSet)`, `Write(TaskId)` and `None`. -/
inductive RwLockHolder where
  | Read (readers : TaskSet)
  | Write (writer : TaskId)
  | None
deriving DecidableEq, Repr

/-- The Rust struct `RwLockState` with fields `holder`, `waiting_readers` and `waiting_writers`. -/
structure RwLockState where
  holder : RwLockHolder
  waiting_readers : TaskSet
  waiting_writers : TaskSet
deriving DecidableEq, Repr

/-- Scheduler calls made by the lock, recorded as a trace:
`block t` marks task `t` not runnable (this covers both
`s.current_mut().block()` with `t` the current task and
`s.get_mut(tid).block()`), `unblock t` marks `t` runnable,
`maybeUnblock t` marks `t` runnable if it was blocked (no-op otherwise),
and `switch` is the yield point `Execution::switch()`. -/
inductive Effect where
  | block (t : TaskId)
  | unblock (t : TaskId)
  | maybeUnblock (t : TaskId)
  | switch
deriving DecidableEq, Repr

/-- Meaning of one scheduler effect on the set of blocked tasks.
On the blocked set itself, `unblock` and `maybeUnblock` act the same way
(erase); the two differ only in whether the scheduler tolerates the task
already being runnable, which the trace keeps distinguishable. -/
def applyEffect (blocked : Finset TaskId) : Effect → Finset TaskId
  | .block t => insert t blocked
  | .unblock t => blocked.erase t
  | .maybeUnblock t => blocked.erase t
  | .switch => blocked

/-- Meaning of a trace of scheduler effects on the blocked set. -/
def applyEffects (blocked : Finset TaskId) (tr : List Effect) : Finset TaskId :=
  tr.foldl applyEffect blocked

/-- Number of yield points (`Execution::switch()` calls) in a trace. -/
def countSwitch (tr : List Effect) : Nat :=
  tr.countP (fun e => e = Effect.switch)

/-- The initial lock state built by `RwLock::new`: holder `None`, empty
waiting sets. -/
def initState : RwLockState :=
  { holder := .None, waiting_readers := [], waiting_writers := [] }

/-- The lock together with the protected value (`RwLock<T>`: the cooperative
state plus the value stored in `inner: std::sync::RwLock<T>`). -/
structure RwLockModel (α : Type) where
  value : α
  state : RwLockState

/-- Constructor `RwLock::new(value)`. -/
def new {α : Type} (value : α) : RwLockModel α :=
  { value := value, state := initState }

/-- Consuming `RwLock::into_inner`: `assert_eq!(self.state.borrow().holder, RwLockHolder::None)`
then return the protected value. The assertion failure is a fatal error. -/
def into_inner {α : Type} (l : RwLockModel α) : Except String α :=
  if l.state.holder = RwLockHolder.None then .ok l.value
  else .error "into_inner while lock is held"

/-- First half of `fn lock(&self, write: bool)`, up to (not including)
`Execution::switch()`: insert the caller into the waiting set matching
`write`, then inspect the holder; a `Write` holder must not be the caller
(`assert_ne!`) and blocks the caller; a `Read` holder must not contain the
caller (`assert!`) and blocks the caller only when `write`; `None` blocks
nobody. Returns the updated state and the trace of scheduler calls. -/
def lock_intent (write : Bool) (me : TaskId) (s : RwLockState) :
    Except String (RwLockState × List Effect) :=
  let s1 :=
    if write then { s with waiting_writers := s.waiting_writers.insert me }
    else { s with waiting_readers := s.waiting_readers.insert me }
  match s1.holder with
  | .Write writer =>
      if writer = me then .error "acquiring a lock already write-held by self"
      else .ok (s1, [.block me])
  | .Read readers =>
      if me ∈ readers then .error "acquiring a lock already read-held by self"
      else if write then .ok (s1, [.block me]) else .ok (s1, [])
  | .None => .ok (s1, [])

/-- The commit `match (write, &mut state.holder)` executed after the yield
inside `fn lock`: a writer commits only from `None`; a reader commits from
`None` (becoming the singleton reader set) or joins an existing `Read`
holder; every other combination is the `panic!("resumed a waiting thread ...")`
branch. -/
def lockCommit (write : Bool) (me : TaskId) (holder : RwLockHolder) :
    Except String RwLockHolder :=
  match write, holder with
  | true, .None => .ok (.Write me)
  | false, .None => .ok (.Read (([] : TaskSet).insert me))
  | false, .Read readers => .ok (.Read (readers.insert me))
  | _, _ => .error "resumed a waiting thread while the lock was in an incompatible state"

/-- Helper `fn block_waiters`: iterate over `waiting_readers` chained with
`waiting_writers`, `assert_ne!(tid, me)` and block each. -/
def block_waiters (st : RwLockState) (me : TaskId) : Except String (List Effect) :=
  let waiters := st.waiting_readers ++ st.waiting_writers
  if me ∈ waiters then .error "blocking a waiter that is the current task"
  else .ok (waiters.map Effect.block)

/-- Helper `fn unblock_waiters`: iterate over `waiting_readers` chained with
`waiting_writers`, `assert_ne!(tid, me)` and either `unblock` (when
`should_be_blocked`) or `maybe_unblock` each. -/
def unblock_waiters (st : RwLockState) (me : TaskId) (should_be_blocked : Bool) :
    Except String (List Effect) :=
  let waiters := st.waiting_readers ++ st.waiting_writers
  if me ∈ waiters then .error "unblocking a waiter that is the current task"
  else
    .ok (waiters.map
      (fun t => if should_be_blocked then Effect.unblock t else Effect.maybeUnblock t))

/-- Second half of `fn lock`, from the return of `Execution::switch()`:
commit the acquisition via `lockCommit`, remove the caller from the waiting
set matching `write`, then unconditionally remove it from `waiting_readers`,
and finally `block_waiters` on the resulting state. -/
def lock_resume (write : Bool) (me : TaskId) (s : RwLockState) :
    Except String (RwLockState × List Effect) := do
  let holder2 ← lockCommit write me s.holder
  let s1 := { s with holder := holder2 }
  let s2 :=
    if write then { s1 with waiting_writers := TaskSet.remove s1.waiting_writers me }
    else { s1 with waiting_readers := TaskSet.remove s1.waiting_readers me }
  let s3 := { s2 with waiting_readers := TaskSet.remove s2.waiting_readers me }
  let tr ← block_waiters s3 me
  .ok (s3, tr)

/-- The whole of `fn lock(&self, write: bool)`: the intent half, the yield
point (during which the scheduler may run other tasks, modelled by the
arbitrary state transformer `env` applied to the state at the yield), and
the resume half. The trace chains the two halves around the `.switch`
effect of `Execution::switch()`. -/
def lock_full (write : Bool) (me : TaskId) (s : RwLockState)
    (env : RwLockState → RwLockState) :
    Except String (RwLockState × List Effect) := do
  let (s1, tr1) ← lock_intent write me s
  let (s2, tr2) ← lock_resume write me (env s1)
  .ok (s2, tr1 ++ [Effect.switch] ++ tr2)

/-- Release path `impl Drop for RwLockReadGuard`: match on the holder — a `Read` holder
has the dropping task removed from its reader set, transitioning to `None`
when the set empties; any other holder is the
`panic!("exiting a reader but rwlock is in the wrong state")` branch.
Then `unblock_waiters(.., false)` (maybe-unblock) and `Execution::switch()`. -/
def read_guard_drop (me : TaskId) (s : RwLockState) :
    Except String (RwLockState × List Effect) :=
  match s.holder with
  | .Read readers =>
      let readers1 := TaskSet.remove readers me
      let s1 : RwLockState :=
        { s with holder := if readers1.isEmpty then .None else .Read readers1 }
      (do
        let tr ← unblock_waiters s1 me false
        .ok (s1, tr ++ [Effect.switch]))
  | _ => .error "exiting a reader but rwlock is in the wrong state"

/-- Release path `impl Drop for RwLockWriteGuard`: `assert_eq!(state.holder, Write(me))`,
set the holder to `None`, `unblock_waiters(.., true)` (strict unblock) and
`Execution::switch()`. -/
def write_guard_drop (me : TaskId) (s : RwLockState) :
    Except String (RwLockState × List Effect) :=
  if s.holder = RwLockHolder.Write me then
    let s1 : RwLockState := { s with holder := .None }
    (do
      let tr ← unblock_waiters s1 me true
      .ok (s1, tr ++ [Effect.switch]))
  else .error "exiting a writer but rwlock is in the wrong state"

/-- One transition of the lock's state machine: a panic-free execution of an
acquire intent half, an acquire resume half, a read-guard drop or a
write-guard drop, by any task. -/
inductive Step : RwLockState → RwLockState → Prop where
  | intent (write : Bool) (me : TaskId) (s s' : RwLockState) (tr : List Effect) :
      lock_intent write me s = .ok (s', tr) → Step s s'
  | resume (write : Bool) (me : TaskId) (s s' : RwLockState) (tr : List Effect) :
      lock_resume write me s = .ok (s', tr) → Step s s'
  | readDrop (me : TaskId) (s s' : RwLockState) (tr : List Effect) :
      read_guard_drop me s = .ok (s', tr) → Step s s'
  | writeDrop (me : TaskId) (s s' : RwLockState) (tr : List Effect) :
      write_guard_drop me s = .ok (s', tr) → Step s s'

/-- States reachable from the freshly constructed lock by any interleaving
of acquisitions and releases. -/
def Reach (s : RwLockState) : Prop :=
  Relation.ReflTransGen Step initState s

/-- Whether `holder` is write-held. -/
def isWriteHeld : RwLockHolder → Bool
  | .Write _ => true
  | _ => false

/-- Whether `holder` is read-held. -/
def isReadHeld : RwLockHolder → Bool
  | .Read _ => true
  | _ => false

/-- Mutual exclusion of a single state: the holder is not simultaneously
write-held and read-held, and at most one task id is the exclusive writer. -/
def mutualExclusion (s : RwLockState) : Prop :=
  ¬(isWriteHeld s.holder = true ∧ isReadHeld s.holder = true) ∧
  ∀ t1 t2, s.holder = .Write t1 → s.holder = .Write t2 → t1 = t2

/-- Borrow state of the inner `std::sync::RwLock` (external to the crate):
the number of live shared borrows and whether a live exclusive borrow
exists. -/
structure NativeRwLock where
  nreaders : Nat
  nwriter : Bool
deriving DecidableEq, Repr

/-- Native `std::sync::RwLock::try_read`: succeeds (adding a shared borrow) iff no
exclusive borrow is live. -/
def try_read (n : NativeRwLock) : Option NativeRwLock :=
  if n.nwriter then none else some { n with nreaders := n.nreaders + 1 }

/-- Native `std::sync::RwLock::try_write`: succeeds (taking the exclusive borrow)
iff no borrow at all is live. -/
def try_write (n : NativeRwLock) : Option NativeRwLock :=
  if n.nwriter ∨ n.nreaders ≠ 0 then none else some { n with nwriter := true }

/-- The native lock with no live borrows, as built by `RwLock::new`. -/
def nativeInit : NativeRwLock :=
  { nreaders := 0, nwriter := false }

/-- Combined state: the cooperative bookkeeping and the inner native lock. -/
abbrev CombState := RwLockState × NativeRwLock

/-- One transition of the combined system.

An acquisition step is `fn read` / `fn write`: the cooperative commit
(`lock_resume`) followed by the non-blocking borrow of the native lock
(whose success is exactly the absence of the "rwlock state out of sync"
panic). A release step is a guard drop: the native borrow is returned
first (`self.inner = None`) and then the cooperative release runs. A live
read guard of task `me` is witnessed by `me` being in the current reader
set, and its drop removes one shared borrow; the resume step's side
condition that `me` is not already a reader reflects that a task resuming
`fn lock` passed the `assert!(!readers.contains(me))` in `lock_intent`
and cannot have been added as a reader in between (only a task's own
commit adds it). Intent halves are included for completeness; they touch
only the waiting sets. -/
inductive CombStep : CombState → CombState → Prop where
  | intent (write : Bool) (me : TaskId) (c : CombState) (s' : RwLockState)
      (tr : List Effect) :
      lock_intent write me c.1 = .ok (s', tr) → CombStep c (s', c.2)
  | readAcq (me : TaskId) (c : CombState) (s' : RwLockState) (tr : List Effect)
      (n' : NativeRwLock) :
      (∀ R, c.1.holder = .Read R → me ∉ R) →
      lock_resume false me c.1 = .ok (s', tr) →
      try_read c.2 = some n' → CombStep c (s', n')
  | writeAcq (me : TaskId) (c : CombState) (s' : RwLockState) (tr : List Effect)
      (n' : NativeRwLock) :
      lock_resume true me c.1 = .ok (s', tr) →
      try_write c.2 = some n' → CombStep c (s', n')
  | readRel (me : TaskId) (c : CombState) (R : TaskSet) (s' : RwLockState)
      (tr : List Effect) :
      c.1.holder = .Read R → me ∈ R →
      read_guard_drop me c.1 = .ok (s', tr) →
      CombStep c (s', { c.2 with nreaders := c.2.nreaders - 1 })
  | writeRel (me : TaskId) (c : CombState) (s' : RwLockState) (tr : List Effect) :
      write_guard_drop me c.1 = .ok (s', tr) →
      CombStep c (s', { c.2 with nwriter := false })

/-- Combined states reachable from a freshly constructed lock. -/
def CombReach (c : CombState) : Prop :=
  Relation.ReflTransGen CombStep (initState, nativeInit) c

/-- Coupling invariant between the cooperative holder and the native
borrows: unlocked means no borrows; `Read R` means `R.length` shared
borrows and no exclusive one; `Write _` means the exclusive borrow and no
shared ones. -/
def nativeSync (c : CombState) : Prop :=
  match c.1.holder with
  | .None => c.2.nreaders = 0 ∧ c.2.nwriter = false
  | .Read R => c.2.nreaders = R.length ∧ c.2.nwriter = false ∧ R.Nodup
  | .Write _ => c.2.nreaders = 0 ∧ c.2.nwriter = true

lemma TaskSet.mem_remove_iff {ts : TaskSet} {a t : TaskId} :
    a ∈ ts.remove t ↔ a ∈ ts ∧ a ≠ t := by
  simp [TaskSet.remove, List.mem_filter]

lemma TaskSet.not_mem_remove (ts : TaskSet) (t : TaskId) : t ∉ ts.remove t := by
  simp [TaskSet.mem_remove_iff]

lemma TaskSet.remove_idem (ts : TaskSet) (t : TaskId) :
    (ts.remove t).remove t = ts.remove t := by
  simp [TaskSet.remove, List.filter_filter]

lemma lock_intent_ok {w : Bool} {me : TaskId} {s s' : RwLockState} {tr : List Effect}
    (h : lock_intent w me s = .ok (s', tr)) :
    s'.holder = s.holder ∧ (tr = [] ∨ tr = [Effect.block me]) ∧
    s'.waiting_readers = (if w then s.waiting_readers else s.waiting_readers.insert me) ∧
    s'.waiting_writers = (if w then s.waiting_writers.insert me else s.waiting_writers) := by
  unfold lock_intent at h
  cases w
  all_goals rcases hh : s.holder with R | wtr | _
  all_goals rw [hh] at h
  all_goals simp only [Bool.false_eq_true, if_false, if_true] at h
  case false.Read | true.Read =>
    by_cases hc : me ∈ R
    · rw [if_pos hc] at h; exact absurd h (by simp)
    · rw [if_neg hc] at h
      simp only [Except.ok.injEq, Prod.mk.injEq] at h
      obtain ⟨h1, h2⟩ := h
      subst h2
      simp [← h1, hh]
  case false.Write | true.Write =>
    by_cases hc : wtr = me
    · rw [if_pos hc] at h; exact absurd h (by simp)
    · rw [if_neg hc] at h
      simp only [Except.ok.injEq, Prod.mk.injEq] at h
      obtain ⟨h1, h2⟩ := h
      subst h2
      simp [← h1, hh]
  case false.None | true.None =>
    simp only [Except.ok.injEq, Prod.mk.injEq] at h
    obtain ⟨h1, h2⟩ := h
    subst h2
    simp [← h1, hh]

lemma lock_resume_ok {w : Bool} {me : TaskId} {s s' : RwLockState} {tr : List Effect}
    (h : lock_resume w me s = .ok (s', tr)) :
    lockCommit w me s.holder = .ok s'.holder ∧
    s'.waiting_readers = s.waiting_readers.remove me ∧
    s'.waiting_writers = (if w then s.waiting_writers.remove me else s.waiting_writers) ∧
    me ∉ s'.waiting_readers ∧ me ∉ s'.waiting_writers ∧
    tr = (s'.waiting_readers ++ s'.waiting_writers).map Effect.block := by
  unfold lock_resume at h
  cases hc : lockCommit w me s.holder with
  | error e =>
    rw [hc] at h
    simp [bind, Except.bind] at h
  | ok h2 =>
    rw [hc] at h
    simp only [bind, Except.bind] at h
    unfold block_waiters at h
    cases w
    all_goals simp only [Bool.false_eq_true, if_false, if_true] at h ⊢
    · rw [TaskSet.remove_idem] at h
      by_cases hm : me ∈ s.waiting_readers.remove me ++ s.waiting_writers
      · rw [if_pos hm] at h; exact absurd h (by simp)
      · rw [if_neg hm] at h
        dsimp only at h
        simp only [Except.ok.injEq, Prod.mk.injEq] at h
        obtain ⟨h1, htr⟩ := h
        subst h1
        subst htr
        refine ⟨rfl, rfl, rfl, TaskSet.not_mem_remove _ _, ?_, rfl⟩
        simp only [List.mem_append] at hm
        push_neg at hm
        exact hm.2
    · by_cases hm : me ∈ s.waiting_readers.remove me ++ s.waiting_writers.remove me
      · rw [if_pos hm] at h; exact absurd h (by simp)
      · rw [if_neg hm] at h
        dsimp only at h
        simp only [Except.ok.injEq, Prod.mk.injEq] at h
        obtain ⟨h1, htr⟩ := h
        subst h1
        subst htr
        exact ⟨rfl, rfl, rfl, TaskSet.not_mem_remove _ _, TaskSet.not_mem_remove _ _, rfl⟩

lemma unblock_waiters_ok {st : RwLockState} {me : TaskId} {b : Bool} {tr : List Effect}
    (h : unblock_waiters st me b = .ok tr) :
    me ∉ st.waiting_readers ∧ me ∉ st.waiting_writers ∧
    tr = (st.waiting_readers ++ st.waiting_writers).map
      (fun t => if b then Effect.unblock t else Effect.maybeUnblock t) := by
  unfold unblock_waiters at h
  by_cases hm : me ∈ st.waiting_readers ++ st.waiting_writers
  · rw [if_pos hm] at h; exact absurd h (by simp)
  · rw [if_neg hm] at h
    simp only [Except.ok.injEq] at h
    simp only [List.mem_append] at hm
    push_neg at hm
    exact ⟨hm.1, hm.2, h.symm⟩

lemma read_guard_drop_ok {me : TaskId} {s s' : RwLockState} {tr : List Effect}
    (h : read_guard_drop me s = .ok (s', tr)) :
    ∃ R, s.holder = .Read R ∧
      s' = { s with holder := if (R.remove me).isEmpty then .None else .Read (R.remove me) } ∧
      me ∉ s.waiting_readers ∧ me ∉ s.waiting_writers ∧
      tr = (s.waiting_readers ++ s.waiting_writers).map Effect.maybeUnblock ++ [Effect.switch] := by
  unfold read_guard_drop at h
  rcases hh : s.holder with R | wtr | _
  all_goals rw [hh] at h
  case Write | None => exact absurd h (by simp)
  refine ⟨R, rfl, ?_⟩
  dsimp only at h
  cases hu : unblock_waiters
      { s with holder := if (R.remove me).isEmpty then .None else .Read (R.remove me) } me false with
  | error e => rw [hu] at h; simp [bind, Except.bind] at h
  | ok utr =>
    rw [hu] at h
    simp only [bind, Except.bind] at h
    simp only [Except.ok.injEq, Prod.mk.injEq] at h
    obtain ⟨h1, htr⟩ := h
    obtain ⟨hm1, hm2, hmap⟩ := unblock_waiters_ok hu
    subst htr
    refine ⟨h1.symm, hm1, hm2, ?_⟩
    rw [hmap]
    simp

lemma write_guard_drop_ok {me : TaskId} {s s' : RwLockState} {tr : List Effect}
    (h : write_guard_drop me s = .ok (s', tr)) :
    s.holder = .Write me ∧ s' = { s with holder := .None } ∧
    me ∉ s.waiting_readers ∧ me ∉ s.waiting_writers ∧
    tr = (s.waiting_readers ++ s.waiting_writers).map Effect.unblock ++ [Effect.switch] := by
  unfold write_guard_drop at h
  by_cases hw : s.holder = RwLockHolder.Write me
  · rw [if_pos hw] at h
    dsimp only at h
    cases hu : unblock_waiters { s with holder := .None } me true with
    | error e => rw [hu] at h; simp [bind, Except.bind] at h
    | ok utr =>
      rw [hu] at h
      simp only [bind, Except.bind] at h
      simp only [Except.ok.injEq, Prod.mk.injEq] at h
      obtain ⟨h1, htr⟩ := h
      obtain ⟨hm1, hm2, hmap⟩ := unblock_waiters_ok hu
      subst htr
      refine ⟨hw, h1.symm, hm1, hm2, ?_⟩
      rw [hmap]
      simp
  · rw [if_neg hw] at h
    exact absurd h (by simp)

lemma write_guard_drop_err {me : TaskId} {s : RwLockState}
    (h : s.holder ≠ RwLockHolder.Write me) :
    ∃ msg, write_guard_drop me s = .error msg := by
  unfold write_guard_drop
  rw [if_neg h]
  exact ⟨_, rfl⟩

lemma read_guard_drop_err {me : TaskId} {s : RwLockState}
    (h : ∀ R, s.holder ≠ RwLockHolder.Read R) :
    ∃ msg, read_guard_drop me s = .error msg := by
  unfold read_guard_drop
  rcases hh : s.holder with R | wtr | _
  · exact absurd hh (h R)
  · exact ⟨_, rfl⟩
  · exact ⟨_, rfl⟩

lemma lockCommit_ok_true {me : TaskId} {h h' : RwLockHolder}
    (hc : lockCommit true me h = .ok h') :
    h = .None ∧ h' = .Write me := by
  cases h <;> simp [lockCommit] at hc <;> simp [hc.symm]

lemma lockCommit_ok_false {me : TaskId} {h h' : RwLockHolder}
    (hc : lockCommit false me h = .ok h') :
    (h = .None ∧ h' = .Read ([me] : TaskSet)) ∨
    (∃ R, h = .Read R ∧ h' = .Read (R.insert me)) := by
  cases h <;> simp [lockCommit] at hc
  · exact .inr ⟨_, rfl, hc.symm⟩
  · exact .inl ⟨rfl, hc.symm⟩

lemma mem_applyEffects_mono {t : TaskId} (l : List TaskId) (blocked : Finset TaskId)
    (h : t ∈ blocked) : t ∈ applyEffects blocked (l.map Effect.block) := by
  induction l generalizing blocked with
  | nil => exact h
  | cons a l ih =>
      simp only [List.map_cons, applyEffects, List.foldl_cons, applyEffect]
      exact ih _ (Finset.mem_insert_of_mem h)

lemma mem_applyEffects_block {t : TaskId} {l : List TaskId} (blocked : Finset TaskId)
    (h : t ∈ l) : t ∈ applyEffects blocked (l.map Effect.block) := by
  induction l generalizing blocked with
  | nil => cases h
  | cons a l ih =>
      simp only [List.map_cons, applyEffects, List.foldl_cons, applyEffect]
      rcases List.mem_cons.mp h with rfl | hmem
      · exact mem_applyEffects_mono l _ (Finset.mem_insert_self t blocked)
      · exact ih _ hmem

lemma countSwitch_append (a b : List Effect) :
    countSwitch (a ++ b) = countSwitch a + countSwitch b := by
  simp [countSwitch, List.countP_append]

lemma countSwitch_map_block (l : List TaskId) : countSwitch (l.map Effect.block) = 0 := by
  simp [countSwitch, List.countP_map]

lemma countSwitch_map_unblock (l : List TaskId) : countSwitch (l.map Effect.unblock) = 0 := by
  simp [countSwitch, List.countP_map]

lemma countSwitch_map_maybeUnblock (l : List TaskId) :
    countSwitch (l.map Effect.maybeUnblock) = 0 := by
  simp [countSwitch, List.countP_map]

lemma countSwitch_single : countSwitch [Effect.switch] = 1 := by
  simp [countSwitch]

lemma TaskSet.remove_of_not_mem {ts : TaskSet} {t : TaskId} (h : t ∉ ts) :
    ts.remove t = ts := by
  unfold TaskSet.remove
  apply List.filter_eq_self.mpr
  intro a ha
  simp only [bne_iff_ne, ne_eq]
  exact fun he => h (he ▸ ha)

lemma TaskSet.length_remove {ts : TaskSet} {t : TaskId} (hN : ts.Nodup) (hm : t ∈ ts) :
    (ts.remove t).length + 1 = ts.length := by
  induction ts with
  | nil => cases hm
  | cons a l ih =>
      rcases List.mem_cons.mp hm with rfl | hmem
      · have hnotin : t ∉ l := (List.nodup_cons.mp hN).1
        have hstep : TaskSet.remove (t :: l) t = TaskSet.remove l t := by
          simp [TaskSet.remove, List.filter_cons]
        rw [hstep, TaskSet.remove_of_not_mem hnotin]
        simp
      · have hne : a ≠ t := by
          rintro rfl
          exact (List.nodup_cons.mp hN).1 hmem
        have : (TaskSet.remove (a :: l) t) = a :: TaskSet.remove l t := by
          simp [TaskSet.remove, List.filter_cons, bne_iff_ne, hne]
        rw [this]
        simp only [List.length_cons]
        rw [← ih (List.nodup_cons.mp hN).2 hmem]

lemma TaskSet.nodup_remove {ts : TaskSet} (t : TaskId) (hN : ts.Nodup) :
    (ts.remove t).Nodup := List.Nodup.filter _ hN

lemma TaskSet.nodup_insert {ts : TaskSet} (t : TaskId) (hN : ts.Nodup) :
    (ts.insert t).Nodup := by
  by_cases hm : t ∈ ts
  · rw [List.insert_of_mem hm]; exact hN
  · rw [List.insert_of_not_mem hm]; exact List.nodup_cons.mpr ⟨hm, hN⟩

lemma TaskSet.length_insert_of_not_mem {ts : TaskSet} {t : TaskId} (h : t ∉ ts) :
    (ts.insert t).length = ts.length + 1 := by
  rw [List.insert_of_not_mem h]
  rfl

lemma nativeSync_step {c c' : CombState} (hs : CombStep c c') (hi : nativeSync c) :
    nativeSync c' := by
  cases hs with
  | intent w me c s' tr h =>
      have hh := (lock_intent_ok h).1
      unfold nativeSync at hi ⊢
      dsimp only
      rw [hh]
      exact hi
  | readAcq me c s' tr n' hnR hres htr =>
      obtain ⟨hcommit, -⟩ := lock_resume_ok hres
      unfold nativeSync at hi ⊢
      dsimp only
      rcases lockCommit_ok_false hcommit with ⟨hN, hR⟩ | ⟨R, hR0, hR⟩
      · rw [hN] at hi
        rw [hR]
        unfold try_read at htr
        rw [if_neg (by rw [hi.2]; exact Bool.false_ne_true)] at htr
        obtain rfl := Option.some.inj htr
        exact ⟨by simp [hi.1], hi.2, by simp⟩
      · rw [hR0] at hi
        rw [hR]
        have hme : me ∉ R := hnR R hR0
        unfold try_read at htr
        rw [if_neg (by rw [hi.2.1]; exact Bool.false_ne_true)] at htr
        obtain rfl := Option.some.inj htr
        refine ⟨?_, hi.2.1, TaskSet.nodup_insert me hi.2.2⟩
        simp [TaskSet.length_insert_of_not_mem hme, hi.1]
  | writeAcq me c s' tr n' hres htr =>
      obtain ⟨hcommit, -⟩ := lock_resume_ok hres
      obtain ⟨hN, hW⟩ := lockCommit_ok_true hcommit
      unfold nativeSync at hi ⊢
      dsimp only
      rw [hN] at hi
      rw [hW]
      unfold try_write at htr
      rw [if_neg (by simp [hi.1, hi.2])] at htr
      obtain rfl := Option.some.inj htr
      exact ⟨hi.1, rfl⟩
  | readRel me c R s' tr hR hmem hdrop =>
      obtain ⟨R', hR', hs', -, -, -⟩ := read_guard_drop_ok hdrop
      rw [hR] at hR'
      obtain rfl : R = R' := by cases hR'; rfl
      unfold nativeSync at hi ⊢
      rw [hR] at hi
      dsimp only
      rw [hs']
      dsimp only
      by_cases hem : (R.remove me).isEmpty
      · rw [if_pos hem]
        have hlen : (R.remove me).length + 1 = R.length := TaskSet.length_remove hi.2.2 hmem
        rw [List.isEmpty_iff] at hem
        rw [hem] at hlen
        simp only [List.length_nil] at hlen
        exact ⟨by simp [hi.1, ← hlen], hi.2.1⟩
      · rw [if_neg hem]
        have hlen : (R.remove me).length + 1 = R.length := TaskSet.length_remove hi.2.2 hmem
        refine ⟨?_, hi.2.1, TaskSet.nodup_remove me hi.2.2⟩
        simp [hi.1, ← hlen]
  | writeRel me c s' tr hdrop =>
      obtain ⟨hW, hs', -, -, -⟩ := write_guard_drop_ok hdrop
      unfold nativeSync at hi ⊢
      rw [hW] at hi
      dsimp only
      rw [hs']
      exact ⟨hi.1, rfl⟩

lemma comb_reach_sync {c : CombState} (h : CombReach c) : nativeSync c := by
  induction h with
  | refl => exact ⟨rfl, rfl⟩
  | tail hsub hstep ih => exact nativeSync_step hstep ih

/-- Claim C1: in every state reachable by any sequence of read/write
acquisitions and guard releases, the holder is never simultaneously
write-held and read-held, and at most one task id appears as the exclusive
writer. -/
theorem mutual_exclusion_reachable (s : RwLockState) (hreach : Reach s) :
    mutualExclusion s := by
  constructor
  · rintro ⟨hw, hr⟩
    rcases hh : s.holder with R | wtr | _ <;> rw [hh] at hw hr <;>
      simp [isWriteHeld, isReadHeld] at hw hr
  · intro t1 t2 h1 h2
    rw [h1] at h2
    exact (RwLockHolder.Write.injEq _ _).mp h2.symm |>.symm

/-- Witness for C1 at the initial state. -/
theorem mutual_exclusion_reachable_witness : mutualExclusion initState :=
  mutual_exclusion_reachable initState Relation.ReflTransGen.refl

/-- Claim C2: the commit step on resumption is exactly: a writer commits
from `None` to `Write me`; a reader commits from `None` to the singleton
reader set, or joins an existing reader set; every other combination of
`(write, holder)` fails fatally with the inconsistent-resume violation. -/
theorem lock_commit_transition :
    (∀ me, lockCommit true me .None = .ok (.Write me)) ∧
    (∀ me, lockCommit false me .None = .ok (.Read [me])) ∧
    (∀ me R, lockCommit false me (.Read R) = .ok (.Read (R.insert me))) ∧
    (∀ me R, ∃ msg, lockCommit true me (.Read R) = .error msg) ∧
    (∀ w me t, ∃ msg, lockCommit w me (.Write t) = .error msg) := by
  refine ⟨fun me => rfl, fun me => rfl, fun me R => rfl,
    fun me R => ⟨_, rfl⟩, fun w me t => ?_⟩
  cases w <;> exact ⟨_, rfl⟩

/-- Claim C3: after a task commits an acquisition, every other task still
recorded in the waiting sets is forced back into the blocked state. -/
theorem race_winner_reblocks_waiters (w : Bool) (me : TaskId) (s s' : RwLockState)
    (tr : List Effect) (blocked : Finset TaskId)
    (h : lock_resume w me s = .ok (s', tr)) :
    ∀ t, t ≠ me → t ∈ s.waiting_readers ∨ t ∈ s.waiting_writers →
      t ∈ applyEffects blocked tr := by
  obtain ⟨-, hwr, hww, -, -, htr⟩ := lock_resume_ok h
  intro t hne hmem
  rw [htr]
  apply mem_applyEffects_block
  rw [List.mem_append, hwr, hww]
  rcases hmem with hr | hw2
  · exact .inl (TaskSet.mem_remove_iff.mpr ⟨hr, hne⟩)
  · right
    cases w
    · simpa using hw2
    · simpa using TaskSet.mem_remove_iff.mpr ⟨hw2, hne⟩

/-- Witness for C3: task 0 read-acquires while tasks 1 (reader) and 2
(writer) are waiting; both end up blocked. -/
theorem race_winner_reblocks_waiters_witness :
    (1 : TaskId) ∈ applyEffects ∅ [Effect.block 1, Effect.block 2] :=
  race_winner_reblocks_waiters false 0 ⟨.None, [1], [2]⟩ ⟨.Read [0], [1], [2]⟩
    [Effect.block 1, Effect.block 2] ∅ (by decide) 1 (by decide) (Or.inl (by decide))

/-- Claim C8: after a successful acquire, the caller has been removed from
the waiting set it was added to, is additionally removed from
`waiting_readers` unconditionally, and appears in neither waiting set. -/
theorem post_acquire_waiting_cleanup (w : Bool) (me : TaskId) (s s' : RwLockState)
    (tr : List Effect) (h : lock_resume w me s = .ok (s', tr)) :
    s'.waiting_readers = s.waiting_readers.remove me ∧
    s'.waiting_writers = (if w then s.waiting_writers.remove me else s.waiting_writers) ∧
    me ∉ s'.waiting_readers ∧ me ∉ s'.waiting_writers := by
  obtain ⟨-, h1, h2, h3, h4, -⟩ := lock_resume_ok h
  exact ⟨h1, h2, h3, h4⟩

/-- Witness for C8: task 0 read-acquires from the state where it waits as a
reader and task 1 waits as a writer. -/
theorem post_acquire_waiting_cleanup_witness :
    ([] : TaskSet) = TaskSet.remove [0] 0 ∧
    ([1] : TaskSet) = (if false = true then TaskSet.remove [1] 0 else [1]) ∧
    (0 : TaskId) ∉ ([] : TaskSet) ∧ (0 : TaskId) ∉ ([1] : TaskSet) :=
  post_acquire_waiting_cleanup false 0 ⟨.None, [0], [1]⟩ ⟨.Read [0], [], [1]⟩
    [Effect.block 1] (by decide)

/-- Counterexample to C4 as stated: task 0 drops a read guard while the
holder is `Read [1]` — a `ReadHeld` state that does NOT contain the
dropping task — and the drop succeeds (no fatal violation); the reader-set
removal is a no-op. -/
theorem read_release_nonmember_counterexample :
    read_guard_drop 0 ⟨.Read [1], [], []⟩ =
      .ok (⟨.Read [1], [], []⟩, [Effect.switch]) ∧
    (0 : TaskId) ∉ ([1] : TaskSet) := by decide

/-- Claim C4 (amended): dropping a read guard removes the dropping task
from the `ReadHeld` reader set (a no-op if it is not a member — membership
is not checked), transitioning to `Unlocked` when the set empties; a holder
that is not `ReadHeld` at all is a fatal invariant violation; on the
successful path every waiting task is unblocked with the maybe-unblock
policy. -/
theorem read_release_protocol (me : TaskId) (s : RwLockState)
    (hr : me ∉ s.waiting_readers) (hw : me ∉ s.waiting_writers) :
    (∀ R, s.holder = .Read R →
      ∃ tr, read_guard_drop me s =
        .ok ({ s with holder :=
          if (R.remove me).isEmpty then .None else .Read (R.remove me) }, tr) ∧
        ∀ t, t ∈ s.waiting_readers ∨ t ∈ s.waiting_writers →
          Effect.maybeUnblock t ∈ tr) ∧
    ((∀ R, s.holder ≠ .Read R) → ∃ msg, read_guard_drop me s = .error msg) := by
  constructor
  · intro R hR
    refine ⟨(s.waiting_readers ++ s.waiting_writers).map Effect.maybeUnblock ++
      [Effect.switch], ?_, ?_⟩
    · unfold read_guard_drop
      rw [hR]
      dsimp only
      unfold unblock_waiters
      rw [if_neg (by
        dsimp only
        rw [List.mem_append]
        push_neg
        exact ⟨hr, hw⟩)]
      simp only [bind, Except.bind, Bool.false_eq_true, if_false]
    · intro t ht
      rw [List.mem_append]
      left
      rw [List.mem_map]
      exact ⟨t, List.mem_append.mpr ht, rfl⟩
  · exact read_guard_drop_err

/-- Witness for C4 (amended): task 0 drops the last read guard while task 1
waits; the lock unlocks and task 1 is maybe-unblocked. -/
theorem read_release_protocol_witness :
    ∃ tr, read_guard_drop 0 ⟨.Read [0], [1], []⟩ =
      .ok (⟨if (TaskSet.remove [0] 0).isEmpty then .None
            else .Read (TaskSet.remove [0] 0), [1], []⟩, tr) ∧
      ∀ t, t ∈ ([1] : TaskSet) ∨ t ∈ ([] : TaskSet) → Effect.maybeUnblock t ∈ tr :=
  (read_release_protocol 0 ⟨.Read [0], [1], []⟩ (by decide) (by decide)).1 [0] rfl

/-- Claim C5: dropping a write guard fails fatally unless the holder is
`Write me`; on the successful path the holder becomes `Unlocked` and every
waiting task is unblocked with the strict must-unblock policy. -/
theorem write_release_protocol (me : TaskId) (s : RwLockState)
    (hr : me ∉ s.waiting_readers) (hw : me ∉ s.waiting_writers) :
    (s.holder = .Write me →
      ∃ tr, write_guard_drop me s = .ok ({ s with holder := .None }, tr) ∧
        ∀ t, t ∈ s.waiting_readers ∨ t ∈ s.waiting_writers →
          Effect.unblock t ∈ tr) ∧
    (s.holder ≠ .Write me → ∃ msg, write_guard_drop me s = .error msg) := by
  constructor
  · intro hW
    refine ⟨(s.waiting_readers ++ s.waiting_writers).map Effect.unblock ++
      [Effect.switch], ?_, ?_⟩
    · unfold write_guard_drop
      rw [if_pos hW]
      dsimp only
      unfold unblock_waiters
      rw [if_neg (by
        dsimp only
        rw [List.mem_append]
        push_neg
        exact ⟨hr, hw⟩)]
      simp only [bind, Except.bind, if_true]
    · intro t ht
      rw [List.mem_append]
      left
      rw [List.mem_map]
      exact ⟨t, List.mem_append.mpr ht, rfl⟩
  · exact write_guard_drop_err

/-- Witness for C5: task 0 drops its write guard while task 2 waits as a
writer; the lock unlocks and task 2 is strictly unblocked. -/
theorem write_release_protocol_witness :
    ∃ tr, write_guard_drop 0 ⟨.Write 0, [], [2]⟩ =
      .ok (⟨.None, [], [2]⟩, tr) ∧
      ∀ t, t ∈ ([] : TaskSet) ∨ t ∈ ([2] : TaskSet) → Effect.unblock t ∈ tr :=
  (write_release_protocol 0 ⟨.Write 0, [], [2]⟩ (by decide) (by decide)).1 rfl

/-- Claim C6: `into_inner` fails fatally iff the holder is not `Unlocked`;
when the holder is `Unlocked` it returns the protected value unchanged. -/
theorem into_inner_contract (α : Type) (l : RwLockModel α) :
    (l.state.holder = .None → into_inner l = .ok l.value) ∧
    (l.state.holder ≠ .None → ∃ msg, into_inner l = .error msg) := by
  constructor
  · intro h
    unfold into_inner
    rw [if_pos h]
  · intro h
    unfold into_inner
    rw [if_neg h]
    exact ⟨_, rfl⟩

/-- Witness for C6: consuming a still-write-held lock around value 42 fails;
consuming it after release returns 42. -/
theorem into_inner_contract_witness :
    (∃ msg, into_inner ⟨(42 : Nat), ⟨.Write 0, [], []⟩⟩ = .error msg) ∧
    into_inner ⟨(42 : Nat), ⟨.None, [], []⟩⟩ = .ok 42 :=
  ⟨(into_inner_contract Nat ⟨42, ⟨.Write 0, [], []⟩⟩).2 (by decide),
   (into_inner_contract Nat ⟨42, ⟨.None, [], []⟩⟩).1 rfl⟩

/-- Claim C7: a task that already holds the lock — as the exclusive writer
or as a member of the current reader set — fails fatally by assertion
during the holder inspection of any new acquisition attempt. -/
theorem reentrant_acquire_fatal (w : Bool) (me : TaskId) (s : RwLockState)
    (h : s.holder = .Write me ∨ ∃ R, s.holder = .Read R ∧ me ∈ R) :
    ∃ msg, lock_intent w me s = .error msg := by
  unfold lock_intent
  rcases h with hW | ⟨R, hR, hmem⟩
  · cases w <;> simp only [Bool.false_eq_true, if_false, if_true] <;>
      (try dsimp only) <;> rw [hW] <;> (try dsimp only) <;>
      rw [if_pos rfl] <;> exact ⟨_, rfl⟩
  · cases w <;> simp only [Bool.false_eq_true, if_false, if_true] <;>
      (try dsimp only) <;> rw [hR] <;> (try dsimp only) <;>
      rw [if_pos hmem] <;> exact ⟨_, rfl⟩

/-- Witness for C7: the current writer re-acquiring for write, and a
current reader re-acquiring for read, both fail fatally. -/
theorem reentrant_acquire_fatal_witness :
    (∃ msg, lock_intent true 0 ⟨.Write 0, [], []⟩ = .error msg) ∧
    (∃ msg, lock_intent false 1 ⟨.Read [1], [], []⟩ = .error msg) :=
  ⟨reentrant_acquire_fatal true 0 ⟨.Write 0, [], []⟩ (Or.inl rfl),
   reentrant_acquire_fatal false 1 ⟨.Read [1], [], []⟩ (Or.inr ⟨[1], rfl, by decide⟩)⟩

/-- Counterexample to C9 as stated: a successful read acquisition from the
unlocked state passes through exactly one suspension point
(`Execution::switch()`), not two. -/
theorem acquire_single_yield_counterexample :
    lock_full false 0 initState id =
      .ok (⟨.Read [0], [], []⟩, [Effect.switch]) ∧
    countSwitch [Effect.switch] ≠ 2 := by decide

/-- Claim C9 (amended): every acquisition — including an
immediately-compatible one, which still passes through the scheduling yield
before committing — passes through exactly ONE suspension point, and every
guard release passes through exactly one suspension point. -/
theorem suspension_point_count :
    (∀ w me s env s' tr, lock_full w me s env = .ok (s', tr) →
      countSwitch tr = 1) ∧
    (∀ me s s' tr, read_guard_drop me s = .ok (s', tr) → countSwitch tr = 1) ∧
    (∀ me s s' tr, write_guard_drop me s = .ok (s', tr) → countSwitch tr = 1) := by
  refine ⟨?_, ?_, ?_⟩
  · intro w me s env s' tr h
    unfold lock_full at h
    cases hi : lock_intent w me s with
    | error e => rw [hi] at h; simp [bind, Except.bind] at h
    | ok p =>
      obtain ⟨s1, tr1⟩ := p
      rw [hi] at h
      simp only [bind, Except.bind] at h
      cases hr : lock_resume w me (env s1) with
      | error e => rw [hr] at h; simp [bind, Except.bind] at h
      | ok q =>
        obtain ⟨s2, tr2⟩ := q
        rw [hr] at h
        dsimp only at h
        simp only [Except.ok.injEq, Prod.mk.injEq] at h
        obtain ⟨-, htr⟩ := h
        subst htr
        obtain ⟨-, htr1, -⟩ := lock_intent_ok hi
        obtain ⟨-, -, -, -, -, htr2⟩ := lock_resume_ok hr
        rw [htr2, countSwitch_append, countSwitch_append, countSwitch_map_block,
          countSwitch_single]
        rcases htr1 with rfl | rfl
        · rfl
        · simp [countSwitch]
  · intro me s s' tr h
    obtain ⟨R, -, -, -, -, htr⟩ := read_guard_drop_ok h
    rw [htr, countSwitch_append, countSwitch_map_maybeUnblock, countSwitch_single]
  · intro me s s' tr h
    obtain ⟨-, -, -, -, htr⟩ := write_guard_drop_ok h
    rw [htr, countSwitch_append, countSwitch_map_unblock, countSwitch_single]

/-- Witness for C9 (amended): concrete traces of an uncontended read
acquisition, a last-reader release, and a writer release, each with one
yield. -/
theorem suspension_point_count_witness :
    countSwitch [Effect.switch] = 1 ∧
    countSwitch [Effect.maybeUnblock 1, Effect.switch] = 1 ∧
    countSwitch [Effect.unblock 2, Effect.switch] = 1 :=
  ⟨suspension_point_count.1 false 0 initState id ⟨.Read [0], [], []⟩
      [Effect.switch] (by decide),
   suspension_point_count.2.1 0 ⟨.Read [0], [1], []⟩ ⟨.None, [1], []⟩
      [Effect.maybeUnblock 1, Effect.switch] (by decide),
   suspension_point_count.2.2 0 ⟨.Write 0, [], [2]⟩ ⟨.None, [], [2]⟩
      [Effect.unblock 2, Effect.switch] (by decide)⟩

/-- Claim C10: in every reachable combined state, whenever the commit step
of `read()` succeeds the subsequent non-blocking shared borrow of the inner
native lock succeeds, and whenever the commit step of `write()` succeeds
the subsequent non-blocking exclusive borrow succeeds — the
"rwlock state out of sync" panic branch is unreachable. -/
theorem native_lock_in_sync (c : CombState) (h : CombReach c) :
    (∀ me s' tr, lock_resume false me c.1 = .ok (s', tr) →
      (try_read c.2).isSome = true) ∧
    (∀ me s' tr, lock_resume true me c.1 = .ok (s', tr) →
      (try_write c.2).isSome = true) := by
  have hsync := comb_reach_sync h
  constructor
  · intro me s' tr hres
    obtain ⟨hcommit, -⟩ := lock_resume_ok hres
    unfold try_read
    rcases lockCommit_ok_false hcommit with ⟨hN, -⟩ | ⟨R, hR, -⟩
    · unfold nativeSync at hsync
      rw [hN] at hsync
      rw [if_neg (by simp [hsync.2])]
      rfl
    · unfold nativeSync at hsync
      rw [hR] at hsync
      rw [if_neg (by simp [hsync.2.1])]
      rfl
  · intro me s' tr hres
    obtain ⟨hcommit, -⟩ := lock_resume_ok hres
    obtain ⟨hN, -⟩ := lockCommit_ok_true hcommit
    unfold nativeSync at hsync
    rw [hN] at hsync
    unfold try_write
    rw [if_neg (by simp [hsync.1, hsync.2])]
    rfl

/-- Witness for C10 at the initial combined state: the first read commit
succeeds and the native shared borrow is available. -/
theorem native_lock_in_sync_witness : (try_read nativeInit).isSome = true :=
  (native_lock_in_sync (initState, nativeInit) Relation.ReflTransGen.refl).1 0
    ⟨.Read [0], [], []⟩ [] (by decide)
